import Mathlib

/-!
Verification of the file-transfer protocol implementation in
file_transfer_protocol.py (class FileTransferSocket): the packet codec,
the receiver engine state machine, the sender congestion/flow-control
state machine, and the connect/accept handshake.

Bytes are modelled as natural numbers (wire bytes are < 256); Python ints
are Nat or Int as the source requires; Python exceptions raised by the
struct module and by bytes.decode are modelled with Except.  The sender's
congestion window, a Python float in the source, is modelled as an exact
rational; every property proved about it depends only on order facts
that each arithmetic operation establishes exactly.
-/

namespace FileTransfer

/-- Value of a big-endian byte sequence, as struct.unpack reads an
unsigned big-endian field. -/
def beValue (bs : List Nat) : Nat :=
  bs.foldl (fun acc b => acc * 256 + b) 0

/-- Big-endian encoding of v in n bytes, as struct.pack writes an
unsigned big-endian field of width n. -/
def beBytes : Nat → Nat → List Nat
  | 0, _ => []
  | n + 1, v => beBytes n (v / 256) ++ [v % 256]

/-- Python slice packet[a:b] on a byte string. -/
def pySlice (p : List Nat) (a b : Nat) : List Nat :=
  (p.drop a).take (b - a)

/-- Exceptions that the codec can raise: struct.error from
struct.pack/struct.unpack, and UnicodeDecodeError from bytes.decode. -/
inductive PyErr where
  | structError
  | unicodeError
  deriving DecidableEq

/-- struct.unpack of one n-byte unsigned big-endian field: the buffer
must hold exactly n bytes, otherwise struct.error is raised. -/
def unpackBE (n : Nat) (bs : List Nat) : Except PyErr Nat :=
  if bs.length = n then .ok (beValue bs) else .error .structError

/-- Packet type constants of FileTransferSocket. -/
def PKT_SYN : Nat := 0

def PKT_SYN_ACK : Nat := 1

def PKT_METADATA : Nat := 2

def PKT_DATA : Nat := 3

def PKT_ACK : Nat := 4

def PKT_EOF : Nat := 5

def PKT_FIN : Nat := 6

def PKT_FIN_ACK : Nat := 7

/-- Validity of a byte sequence under Python's strict utf-8 codec
(bytes.decode with no errors argument): RFC 3629 ranges, rejecting
overlong forms, surrogates and code points above U+10FFFF. -/
def utf8Valid : List Nat → Bool
  | [] => true
  | b :: rest =>
    if b < 0x80 then utf8Valid rest
    else if b < 0xC2 then false
    else if b ≤ 0xDF then
      match rest with
      | b1 :: r => decide (0x80 ≤ b1 ∧ b1 ≤ 0xBF) && utf8Valid r
      | [] => false
    else if b ≤ 0xEF then
      match rest with
      | b1 :: b2 :: r =>
        (if b = 0xE0 then decide (0xA0 ≤ b1 ∧ b1 ≤ 0xBF)
         else if b = 0xED then decide (0x80 ≤ b1 ∧ b1 ≤ 0x9F)
         else decide (0x80 ≤ b1 ∧ b1 ≤ 0xBF)) &&
        decide (0x80 ≤ b2 ∧ b2 ≤ 0xBF) && utf8Valid r
      | _ => false
    else if b ≤ 0xF4 then
      match rest with
      | b1 :: b2 :: b3 :: r =>
        (if b = 0xF0 then decide (0x90 ≤ b1 ∧ b1 ≤ 0xBF)
         else if b = 0xF4 then decide (0x80 ≤ b1 ∧ b1 ≤ 0x8F)
         else decide (0x80 ≤ b1 ∧ b1 ≤ 0xBF)) &&
        decide (0x80 ≤ b2 ∧ b2 ≤ 0xBF) && decide (0x80 ≤ b3 ∧ b3 ≤ 0xBF) &&
        utf8Valid r
      | _ => false
    else false

/-- bytes.decode of the filename slice: returns the bytes when they form
valid utf-8 (the decoded str is in bijection with them), raises
UnicodeDecodeError otherwise. -/
def utf8Check (bs : List Nat) : Except PyErr (List Nat) :=
  if utf8Valid bs then .ok bs else .error .unicodeError

/-- Result of _parse_packet: the Python pair (pkt_type, content)
collapsed into one tagged value; resultType below recovers the first
component of the pair.  The METADATA filename is carried as its utf-8
byte sequence. -/
inductive ParseResult where
  | metadataPkt (filenameBytes : List Nat) (filesize : Nat)
  | dataCorrupt
  | dataOk (seqNum : Nat) (payload : List Nat)
  | ackPkt (ackNum : Nat)
  | eofPkt
  | unknown
  deriving DecidableEq

/-- First component of the pair _parse_packet returns: the packet type,
or none for the fall-through return (None, None). -/
def resultType : ParseResult → Option Nat
  | .metadataPkt _ _ => some PKT_METADATA
  | .dataCorrupt => some PKT_DATA
  | .dataOk _ _ => some PKT_DATA
  | .ackPkt _ => some PKT_ACK
  | .eofPkt => some PKT_EOF
  | .unknown => none

/-- sum(data) & 0xFFFFFFFF, the checksum of lines 103 and 137. -/
def dataChecksum (data : List Nat) : Nat := data.sum % 2 ^ 32

/-- _parse_packet (lines 118-152), field by field.  Each struct.unpack
call is unpackBE on the corresponding slice; the utf-8 decode of the
filename is utf8Check; the checksum comparison yields dataCorrupt (the
Python return (pkt_type, None)) on mismatch. -/
def parsePacket (packet : List Nat) : Except PyErr ParseResult :=
  match unpackBE 1 (pySlice packet 0 1) with
  | .error e => .error e
  | .ok pktType =>
    if pktType = PKT_METADATA then
      match unpackBE 2 (pySlice packet 1 3) with
      | .error e => .error e
      | .ok filenameLen =>
        match utf8Check (pySlice packet 3 (3 + filenameLen)) with
        | .error e => .error e
        | .ok filenameBytes =>
          match unpackBE 8 (pySlice packet (3 + filenameLen) (3 + filenameLen + 8)) with
          | .error e => .error e
          | .ok filesize => .ok (.metadataPkt filenameBytes filesize)
    else if pktType = PKT_DATA then
      match unpackBE 4 (pySlice packet 1 5) with
      | .error e => .error e
      | .ok seqNum =>
        match unpackBE 2 (pySlice packet 5 7) with
        | .error e => .error e
        | .ok dataLen =>
          match unpackBE 4 (pySlice packet 7 11) with
          | .error e => .error e
          | .ok checksum =>
            let data := pySlice packet 11 (11 + dataLen)
            if dataChecksum data ≠ checksum then .ok .dataCorrupt
            else .ok (.dataOk seqNum data)
    else if pktType = PKT_ACK then
      match unpackBE 4 (pySlice packet 1 5) with
      | .error e => .error e
      | .ok ackNum => .ok (.ackPkt ackNum)
    else if pktType = PKT_EOF then
      .ok .eofPkt
    else
      .ok .unknown

/-- _create_metadata_packet (lines 87-97), taking the filename's utf-8
bytes; struct.pack('!BH', ...) requires the filename length below 2^16
and struct.pack('!Q', ...) requires the filesize below 2^64, raising
struct.error otherwise. -/
def createMetadataPacket (filenameBytes : List Nat) (filesize : Nat) :
    Except PyErr (List Nat) :=
  if filenameBytes.length < 2 ^ 16 ∧ filesize < 2 ^ 64 then
    .ok (PKT_METADATA :: (beBytes 2 filenameBytes.length ++ (filenameBytes ++ beBytes 8 filesize)))
  else .error .structError

/-- _create_data_packet (lines 99-107): struct.pack('!BIHI', ...) plus
the payload; the I format bounds seq_num by 2^32 and the H format bounds
the payload length by 2^16. -/
def createDataPacket (seqNum : Nat) (data : List Nat) : Except PyErr (List Nat) :=
  if seqNum < 2 ^ 32 ∧ data.length < 2 ^ 16 then
    .ok (PKT_DATA :: (beBytes 4 seqNum ++ (beBytes 2 data.length ++
      (beBytes 4 (dataChecksum data) ++ data))))
  else .error .structError

/-- _create_eof_packet (lines 109-111). -/
def createEofPacket : List Nat := [PKT_EOF]

/-- _create_ack_packet (lines 113-116): struct.pack('!BI', PKT_ACK,
ack_num).  ack_num is a Python int that is negative at some call sites;
the I format requires 0 ≤ ack_num < 2^32 and raises struct.error
otherwise. -/
def createAckPacket (ackNum : Int) : Except PyErr (List Nat) :=
  if 0 ≤ ackNum ∧ ackNum < 2 ^ 32 then
    .ok (PKT_ACK :: beBytes 4 ackNum.toNat)
  else .error .structError

/-- The SYN packet sent by connect (line 56). -/
def createSynPacket : List Nat := [PKT_SYN]

/-- The SYN-ACK packet sent by accept (line 80). -/
def createSynAckPacket : List Nat := [PKT_SYN_ACK]

/-- The FIN packet sent by disconnect (line 447). -/
def createFinPacket : List Nat := [PKT_FIN]

/-- The FIN-ACK packet sent by handle_disconnect (line 469). -/
def createFinAckPacket : List Nat := [PKT_FIN_ACK]

/-- The argument receive_file passes to _create_ack_packet on a
corrupted DATA packet (line 412): expected_seq - 1 if expected_seq > 0
else -1. -/
def corruptedAckArg (expectedSeq : Nat) : Int :=
  if expectedSeq > 0 then (expectedSeq : Int) - 1 else -1

/-- The byte length the leading type byte declares for a buffer, per the
wire-format table of the spec: control packets are 1 byte, METADATA is
3 + filename_len + 8, DATA is 11 + data_len, ACK is 5. -/
def declaredLayout (p : List Nat) : Option Nat :=
  match p.head? with
  | none => none
  | some t =>
    if t = PKT_METADATA then some (3 + beValue (pySlice p 1 3) + 8)
    else if t = PKT_DATA then some (11 + beValue (pySlice p 5 7))
    else if t = PKT_ACK then some 5
    else if t = PKT_SYN ∨ t = PKT_SYN_ACK ∨ t = PKT_EOF ∨ t = PKT_FIN ∨ t = PKT_FIN_ACK then
      some 1
    else none

/-- Receiver-side state of receive_file (lines 393-430): expected_seq,
the out-of-order buffer recv_window (the Python dict as an association
list with unique keys, new keys appended), and the delivered list
received_chunks. -/
structure RecvState where
  expected_seq : Nat
  recv_window : List (Nat × List Nat)
  received_chunks : List (Nat × List Nat)
  deriving DecidableEq

/-- Dict lookup recv_window[k] and the membership test k in recv_window. -/
def lookupW (k : Nat) : List (Nat × List Nat) → Option (List Nat)
  | [] => none
  | (k2, v) :: t => if k2 = k then some v else lookupW k t

/-- del recv_window[k] (line 425). -/
def eraseKey (k : Nat) (w : List (Nat × List Nat)) : List (Nat × List Nat) :=
  w.filter (fun p => p.1 != k)

/-- The body of the while loop of lines 423-426, run up to fuel times:
while expected_seq in recv_window, append the entry to received_chunks,
delete it, increment expected_seq. -/
def drainAux : Nat → RecvState → RecvState
  | 0, st => st
  | fuel + 1, st =>
    match lookupW st.expected_seq st.recv_window with
    | some c =>
      drainAux fuel
        { expected_seq := st.expected_seq + 1,
          recv_window := eraseKey st.expected_seq st.recv_window,
          received_chunks := st.received_chunks ++ [(st.expected_seq, c)] }
    | none => st

/-- The while loop of lines 423-426.  Each pass removes one key from
recv_window, so recv_window.length passes always reach the exit
condition; drainAux runs exactly that many. -/
def drain (st : RecvState) : RecvState :=
  drainAux st.recv_window.length st

/-- Lines 416-430 for an intact DATA packet (seq_num, chunk): insert
into recv_window unless the key is already present (line 419), then
drain in-order packets. -/
def dataStep (st : RecvState) (seqNum : Nat) (chunk : List Nat) : RecvState :=
  let w1 := if (lookupW seqNum st.recv_window).isSome then st.recv_window
            else st.recv_window ++ [(seqNum, chunk)]
  drain { st with recv_window := w1 }

/-- The receiver state set up at lines 393-396. -/
def initRecv : RecvState := ⟨0, [], []⟩

/-- States the receive loop reaches: the initial state and the effect of
each intact DATA packet.  Corrupted DATA packets and datagrams from
non-peer addresses leave the state unchanged and EOF ends the loop, so
they add no states. -/
inductive RecvReach : RecvState → Prop
  | init : RecvReach initRecv
  | data (st : RecvState) (seqNum : Nat) (chunk : List Nat) :
      RecvReach st → RecvReach (dataStep st seqNum chunk)

/-- received_chunks.sort(key=lambda x: x[0]) at line 433: Python's
stable sort by sequence number, modelled as insertion sort on the key
order. -/
def sortByKey (l : List (Nat × List Nat)) : List (Nat × List Nat) :=
  List.insertionSort (fun a b => a.1 ≤ b.1) l

/-- Lines 433-437: the chunks written to the output file are the
payloads of the sorted received_chunks, in order; recv_window is not
consulted. -/
def writeOutput (st : RecvState) : List (List Nat) :=
  (sortByKey st.received_chunks).map Prod.snd

/-- Sender-side state of send_file (lines 169-232).  cwnd, a Python
float in the source, is modelled as an exact rational; the properties
proved about it use only order facts each update establishes exactly. -/
structure SenderState where
  send_base : Nat
  next_seq_num : Nat
  cwnd : Rat
  ssthresh : Nat
  dup_ack_count : Nat
  last_ack : Int
  deriving DecidableEq

/-- The reset of lines 170-175, with INITIAL_CWND = 1 and
SSTHRESH_INIT = 64 and the last_ack sentinel -1. -/
def initSender : SenderState :=
  { send_base := 0, next_seq_num := 0, cwnd := 1, ssthresh := 64,
    dup_ack_count := 0, last_ack := -1 }

/-- effective_window = min(int(self.cwnd), RECV_WINDOW_SIZE) (line 192);
int truncates toward zero, which is the floor of the nonnegative cwnd. -/
def effectiveWindow (s : SenderState) : Nat :=
  min (Int.toNat ⌊s.cwnd⌋) 10

/-- Lines 206-227: processing one ACK with value k from the peer.  New
ACK (k ≥ send_base and k > last_ack): slide the window to k + 1, clear
the duplicate count, record last_ack, and grow cwnd by 1 below ssthresh
(slow start) or by 1/cwnd otherwise (congestion avoidance).  Duplicate
ACK (k = last_ack ≥ 0): increment the counter, and when it reaches
exactly 3 fire fast retransmit: ssthresh = max(int(cwnd / 2), 2),
cwnd = ssthresh + 3, next_seq_num = send_base.  Any other ACK is
ignored. -/
def handleAck (s : SenderState) (k : Nat) : SenderState :=
  if k ≥ s.send_base ∧ (k : Int) > s.last_ack then
    { s with
        send_base := k + 1
        dup_ack_count := 0
        last_ack := (k : Int)
        cwnd := if s.cwnd < (s.ssthresh : Rat) then s.cwnd + 1 else s.cwnd + 1 / s.cwnd }
  else if (k : Int) = s.last_ack ∧ s.last_ack ≥ 0 then
    if s.dup_ack_count + 1 = 3 then
      { s with
          dup_ack_count := s.dup_ack_count + 1
          ssthresh := max (Int.toNat ⌊s.cwnd / 2⌋) 2
          cwnd := ((max (Int.toNat ⌊s.cwnd / 2⌋) 2 : Nat) : Rat) + 3
          next_seq_num := s.send_base }
    else { s with dup_ack_count := s.dup_ack_count + 1 }
  else s

/-- Lines 228-232, the socket.timeout handler: halve into ssthresh
(floored, at least 2), reset cwnd to INITIAL_CWND = 1, clear the
duplicate count and rewind next_seq_num to send_base. -/
def timeoutStep (s : SenderState) : SenderState :=
  { s with
      ssthresh := max (Int.toNat ⌊s.cwnd / 2⌋) 2
      cwnd := 1
      dup_ack_count := 0
      next_seq_num := s.send_base }

/-- States the send_file main loop (lines 190-232) reaches for a
transfer of total chunks, after the reset: transmitting one in-window
packet (lines 195-199, which increments next_seq_num), handling one ACK
from the peer (any 32-bit value the wire can deliver), or a receive
timeout. -/
inductive SenderReach (total : Nat) : SenderState → Prop
  | init : SenderReach total initSender
  | send (s : SenderState) : SenderReach total s →
      s.next_seq_num < total →
      s.next_seq_num < s.send_base + effectiveWindow s →
      SenderReach total { s with next_seq_num := s.next_seq_num + 1 }
  | ack (s : SenderState) (k : Nat) : SenderReach total s → k < 2 ^ 32 →
      SenderReach total (handleAck s k)
  | timeout (s : SenderState) : SenderReach total s →
      SenderReach total (timeoutStep s)

/-- Session state of FileTransferSocket (lines 26-44): the bound and
connected flags and the latched peer address.  Addresses are abstracted
to an identifier compared only for equality. -/
structure Session where
  bound : Bool
  connected : Bool
  peer_addr : Option Nat
  deriving DecidableEq

/-- connect (lines 53-67), after its unconditional SYN send: the pair
(return value, new state) as a function of the received datagram and its
source address.  The type-byte unpack raises struct.error on an empty
datagram. -/
def connectStep (st : Session) (data : List Nat) (addr : Nat) :
    Except PyErr (Bool × Session) :=
  match unpackBE 1 (pySlice data 0 1) with
  | .error e => .error e
  | .ok pktType =>
    if pktType = PKT_SYN_ACK then
      .ok (true, { st with connected := true, peer_addr := some addr })
    else
      .ok (false, st)

/-- accept (lines 69-85): returns False before receiving when not
bound; otherwise inspects the received datagram and on SYN replies with
SYN-ACK (the returned send list) and latches the peer; on any other type
byte it returns False, sends nothing and leaves the state unchanged. -/
def acceptStep (st : Session) (data : List Nat) (addr : Nat) :
    Except PyErr (Bool × Session × List (List Nat × Nat)) :=
  if st.bound = false then .ok (false, st, [])
  else
    match unpackBE 1 (pySlice data 0 1) with
    | .error e => .error e
    | .ok pktType =>
      if pktType = PKT_SYN then
        .ok (true, { st with connected := true, peer_addr := some addr },
          [(createSynAckPacket, addr)])
      else
        .ok (false, st, [])

theorem length_beBytes (n v : Nat) : (beBytes n v).length = n := by
  induction n generalizing v with
  | zero => rfl
  | succ n ih => simp [beBytes, ih]

theorem beValue_append_singleton (xs : List Nat) (b : Nat) :
    beValue (xs ++ [b]) = beValue xs * 256 + b := by
  simp [beValue, List.foldl_append]

theorem beValue_beBytes (n v : Nat) (h : v < 256 ^ n) :
    beValue (beBytes n v) = v := by
  induction n generalizing v with
  | zero =>
    have hv : v = 0 := by simpa using h
    subst hv; rfl
  | succ n ih =>
    have hdiv : v / 256 < 256 ^ n := by
      rw [Nat.div_lt_iff_lt_mul (by norm_num)]
      calc v < 256 ^ (n + 1) := h
        _ = 256 ^ n * 256 := by ring
    rw [beBytes, beValue_append_singleton, ih _ hdiv]
    omega

theorem take_append_len (xs ys : List Nat) (n : Nat) (h : xs.length = n) :
    (xs ++ ys).take n = xs := by
  subst h; simp

theorem drop_append_len (xs ys : List Nat) (n : Nat) (h : xs.length = n) :
    (xs ++ ys).drop n = ys := by
  subst h; simp

example : parsePacket [3, 0, 0, 0, 0, 0, 5, 0, 0, 0, 0] = .ok (.dataOk 0 []) := rfl

example : parsePacket [0] = .ok .unknown := rfl

example : parsePacket (PKT_ACK :: beBytes 4 7) = .ok (.ackPkt 7) := rfl

example : createAckPacket (-1) = .error .structError := rfl

example : parsePacket [2, 0, 2, 0xC3] = .error .unicodeError := rfl

example : parsePacket [2, 0, 1, 0x61] = .error .structError := rfl

theorem beValue_singleton (b : Nat) : beValue [b] = b := by
  simp [beValue]

theorem drop_append_add (xs ys : List Nat) (n m : Nat) (h : xs.length = n) :
    (xs ++ ys).drop (n + m) = ys.drop m := by
  subst h
  exact List.drop_append m

theorem parse_data_shape (A B C D : List Nat) (hA : A.length = 4) (hB : B.length = 2)
    (hC : C.length = 4) (hD : beValue B = D.length) :
    parsePacket (PKT_DATA :: (A ++ (B ++ (C ++ D)))) =
      .ok (if dataChecksum D ≠ beValue C then .dataCorrupt else .dataOk (beValue A) D) := by
  have s01 : pySlice ((3 : Nat) :: (A ++ (B ++ (C ++ D)))) 0 1 = [3] := rfl
  have s15 : pySlice ((3 : Nat) :: (A ++ (B ++ (C ++ D)))) 1 5 = A := by
    have e : pySlice ((3 : Nat) :: (A ++ (B ++ (C ++ D)))) 1 5 =
        (A ++ (B ++ (C ++ D))).take 4 := rfl
    rw [e, List.take_left' hA]
  have s57 : pySlice ((3 : Nat) :: (A ++ (B ++ (C ++ D)))) 5 7 = B := by
    have e : pySlice ((3 : Nat) :: (A ++ (B ++ (C ++ D)))) 5 7 =
        ((A ++ (B ++ (C ++ D))).drop 4).take 2 := rfl
    rw [e, List.drop_left' hA, List.take_left' hB]
  have s711 : pySlice ((3 : Nat) :: (A ++ (B ++ (C ++ D)))) 7 11 = C := by
    have e : pySlice ((3 : Nat) :: (A ++ (B ++ (C ++ D)))) 7 11 =
        ((A ++ (B ++ (C ++ D))).drop 6).take 4 := rfl
    have e2 : (A ++ (B ++ (C ++ D))).drop 6 = (B ++ (C ++ D)).drop 2 :=
      drop_append_add A (B ++ (C ++ D)) 4 2 hA
    rw [e, e2, drop_append_add B (C ++ D) 2 0 hB, List.drop_zero, List.take_left' hC]
  have s11 : pySlice ((3 : Nat) :: (A ++ (B ++ (C ++ D)))) 11 (11 + beValue B) = D := by
    have e : pySlice ((3 : Nat) :: (A ++ (B ++ (C ++ D)))) 11 (11 + beValue B) =
        ((A ++ (B ++ (C ++ D))).drop 10).take (11 + beValue B - 11) := rfl
    have e2 : (A ++ (B ++ (C ++ D))).drop 10 = (B ++ (C ++ D)).drop 6 :=
      drop_append_add A (B ++ (C ++ D)) 4 6 hA
    have e3 : (B ++ (C ++ D)).drop 6 = (C ++ D).drop 4 :=
      drop_append_add B (C ++ D) 2 4 hB
    have e4 : (C ++ D).drop 4 = D := List.drop_left' hC
    rw [e, e2, e3, e4, Nat.add_sub_cancel_left, hD, List.take_length]
  simp only [parsePacket, PKT_METADATA, PKT_DATA, PKT_ACK, PKT_EOF, s01, s15, s57, s711, s11,
    unpackBE, beValue_singleton, List.length_cons, List.length_nil, hA, hB, hC, ite_not,
    Nat.zero_add]
  norm_num [s11]
  exact (apply_ite Except.ok _ _ _).symm

theorem parse_createData_bytes (s : Nat) (D : List Nat) (h1 : s < 2 ^ 32)
    (h2 : D.length < 2 ^ 16) :
    parsePacket (PKT_DATA :: (beBytes 4 s ++ (beBytes 2 D.length ++
      (beBytes 4 (dataChecksum D) ++ D)))) = .ok (.dataOk s D) := by
  have h256 : (2 : Nat) ^ 32 = 256 ^ 4 := by norm_num
  have h2' : D.length < 256 ^ 2 := by norm_num at h2 ⊢; omega
  rw [parse_data_shape (beBytes 4 s) (beBytes 2 D.length) (beBytes 4 (dataChecksum D)) D
    (length_beBytes 4 s) (length_beBytes 2 D.length) (length_beBytes 4 (dataChecksum D))
    (by rw [beValue_beBytes 2 D.length h2'])]
  rw [beValue_beBytes 4 (dataChecksum D) (by rw [← h256]; exact Nat.mod_lt _ (by norm_num)),
    beValue_beBytes 4 s (by rw [← h256]; exact h1)]
  simp

theorem parse_metadata_shape (B fn F : List Nat) (hB : B.length = 2) (hF : F.length = 8)
    (hfn : beValue B = fn.length) (hv : utf8Valid fn = true) :
    parsePacket (PKT_METADATA :: (B ++ (fn ++ F))) = .ok (.metadataPkt fn (beValue F)) := by
  have s01 : pySlice ((2 : Nat) :: (B ++ (fn ++ F))) 0 1 = [2] := rfl
  have s13 : pySlice ((2 : Nat) :: (B ++ (fn ++ F))) 1 3 = B := by
    have e : pySlice ((2 : Nat) :: (B ++ (fn ++ F))) 1 3 = (B ++ (fn ++ F)).take 2 := rfl
    rw [e, List.take_left' hB]
  have sfn : pySlice ((2 : Nat) :: (B ++ (fn ++ F))) 3 (3 + beValue B) = fn := by
    have e : pySlice ((2 : Nat) :: (B ++ (fn ++ F))) 3 (3 + beValue B) =
        ((B ++ (fn ++ F)).drop 2).take (3 + beValue B - 3) := rfl
    rw [e, List.drop_left' hB, Nat.add_sub_cancel_left, hfn, List.take_left]
  have hufn : utf8Check fn = .ok fn := by simp [utf8Check, hv]
  have sF : pySlice ((2 : Nat) :: (B ++ (fn ++ F))) (3 + beValue B) (3 + beValue B + 8) = F := by
    have e1 : ((2 : Nat) :: (B ++ (fn ++ F))).drop (3 + beValue B) =
        (B ++ (fn ++ F)).drop (2 + beValue B) := by
      rw [show 3 + beValue B = (2 + beValue B) + 1 by omega]
      exact List.drop_succ_cons ..
    have e2 : (B ++ (fn ++ F)).drop (2 + beValue B) = (fn ++ F).drop (beValue B) :=
      drop_append_add B (fn ++ F) 2 (beValue B) hB
    have e3 : (fn ++ F).drop (beValue B) = F := by rw [hfn]; exact List.drop_left ..
    have e4 : 3 + beValue B + 8 - (3 + beValue B) = 8 := by omega
    show (((2 : Nat) :: (B ++ (fn ++ F))).drop (3 + beValue B)).take
      (3 + beValue B + 8 - (3 + beValue B)) = F
    rw [e1, e2, e3, e4, ← hF, List.take_length]
  simp only [parsePacket, PKT_METADATA, PKT_DATA, PKT_ACK, PKT_EOF, s01, s13,
    unpackBE, beValue_singleton, List.length_cons, List.length_nil, hB, Nat.zero_add]
  norm_num [sfn, hufn, sF, hF]

theorem parse_ack_shape (A : List Nat) (hA : A.length = 4) :
    parsePacket (PKT_ACK :: A) = .ok (.ackPkt (beValue A)) := by
  have s01 : pySlice ((4 : Nat) :: A) 0 1 = [4] := rfl
  have s15 : pySlice ((4 : Nat) :: A) 1 5 = A := by
    have e : pySlice ((4 : Nat) :: A) 1 5 = A.take 4 := rfl
    rw [e, ← hA, List.take_length]
  simp only [parsePacket, PKT_METADATA, PKT_DATA, PKT_ACK, PKT_EOF, s01, s15, unpackBE,
    beValue_singleton, List.length_cons, List.length_nil, hA, Nat.zero_add]
  norm_num

theorem createData_eq (s : Nat) (D : List Nat) (h1 : s < 2 ^ 32) (h2 : D.length < 2 ^ 16) :
    createDataPacket s D = .ok (PKT_DATA :: (beBytes 4 s ++ (beBytes 2 D.length ++
      (beBytes 4 (dataChecksum D) ++ D)))) := by
  unfold createDataPacket
  rw [if_pos ⟨h1, h2⟩]

theorem createMetadata_eq (fn : List Nat) (fs : Nat) (h1 : fn.length < 2 ^ 16)
    (h2 : fs < 2 ^ 64) :
    createMetadataPacket fn fs =
      .ok (PKT_METADATA :: (beBytes 2 fn.length ++ (fn ++ beBytes 8 fs))) := by
  unfold createMetadataPacket
  rw [if_pos ⟨h1, h2⟩]

theorem createAck_eq (n : Nat) (h : n < 2 ^ 32) :
    createAckPacket (n : Int) = .ok (PKT_ACK :: beBytes 4 n) := by
  have hc1 : (0 : Int) ≤ (n : Int) := Int.natCast_nonneg n
  have hc2 : (n : Int) < 2 ^ 32 := by exact_mod_cast h
  unfold createAckPacket
  rw [if_pos ⟨hc1, hc2⟩]
  simp

theorem sum_set_add (l : List Nat) (i : Nat) (v : Nat) (h : i < l.length) :
    (l.set i v).sum + l.get ⟨i, h⟩ = l.sum + v := by
  induction l generalizing i with
  | nil => simp at h
  | cons a t ih =>
    cases i with
    | zero => simp [List.set_cons_zero]; omega
    | succ n =>
      have hn : n < t.length := by simpa using h
      have := ih n hn
      simp only [List.set_cons_succ, List.sum_cons, List.get_cons_succ]
      omega

theorem sum_le_of_bytes (l : List Nat) (h : ∀ b ∈ l, b < 256) :
    l.sum ≤ l.length * 255 := by
  have h255 : ∀ b ∈ l, b ≤ 255 := fun b hb => Nat.lt_succ_iff.mp (h b hb)
  calc l.sum ≤ l.length • 255 := List.sum_le_card_nsmul l 255 h255
    _ = l.length * 255 := smul_eq_mul ..

/-- Claim C1: when a corrupted DATA packet arrives with expected_seq = 0,
receive_file passes -1 to _create_ack_packet, and struct.pack('!BI', 4, -1)
raises struct.error: no ACK with wire value 0xFFFFFFFF is produced and
receive_file aborts instead of continuing its loop.  For expected_seq > 0
the branch does produce the ACK for expected_seq - 1 (here 3 yields the
ACK packet for 2). -/
theorem c1_sentinel_ack_crashes :
    corruptedAckArg 0 = -1 ∧
    createAckPacket (corruptedAckArg 0) = .error .structError ∧
    createAckPacket (corruptedAckArg 3) = .ok [4, 0, 0, 0, 2] :=
  ⟨rfl, rfl, rfl⟩

/-- Claim C4 counterexample: the 11-byte DATA buffer declaring a 5-byte
payload (declared layout 16 bytes) is shorter than its declared layout,
yet _parse_packet returns a successfully parsed result: the payload slice
is empty and its checksum 0 matches the checksum field. -/
theorem c4_counterexample :
    declaredLayout [3, 0, 0, 0, 0, 0, 5, 0, 0, 0, 0] = some 16 ∧
    List.length [3, 0, 0, 0, 0, 0, 5, 0, 0, 0, 0] = 11 ∧
    parsePacket [3, 0, 0, 0, 0, 0, 5, 0, 0, 0, 0] = .ok (.dataOk 0 []) :=
  ⟨rfl, rfl, rfl⟩

theorem set_append_skip (xs ys : List Nat) (n k : Nat) (v : Nat) (h : xs.length = n) :
    (xs ++ ys).set (n + k) v = xs ++ ys.set k v := by
  subst h
  rw [List.set_append_right _ _ (Nat.le_add_right _ _), Nat.add_sub_cancel_left]

/-- Claim C2 counterexample: the encoded SYN packet decodes to the
fall-through result (None, None): _parse_packet does not return SYN's
type, so decode(encode P) = P fails for the SYN variant. -/
theorem c2_counterexample :
    parsePacket createSynPacket = .ok .unknown ∧
    resultType .unknown ≠ some PKT_SYN :=
  ⟨rfl, by decide⟩

/-- Claim C2 amended: decode(encode P) returns P's type and payload for
the METADATA, DATA, ACK and EOF variants (DATA with the checksum
recomputed and reported valid); for SYN, SYN-ACK, FIN and FIN-ACK,
_parse_packet has no branch and falls through to (None, None) instead of
returning the packet's type. -/
theorem c2_roundtrip :
    (∀ fn fs, utf8Valid fn = true → fn.length < 2 ^ 16 → fs < 2 ^ 64 →
      ∃ pkt, createMetadataPacket fn fs = .ok pkt ∧
        parsePacket pkt = .ok (.metadataPkt fn fs)) ∧
    (∀ s D, s < 2 ^ 32 → D.length ≤ 1024 →
      ∃ pkt, createDataPacket s D = .ok pkt ∧
        parsePacket pkt = .ok (.dataOk s D)) ∧
    (∀ n : Nat, n < 2 ^ 32 →
      ∃ pkt, createAckPacket (n : Int) = .ok pkt ∧
        parsePacket pkt = .ok (.ackPkt n)) ∧
    parsePacket createEofPacket = .ok .eofPkt ∧
    parsePacket createSynPacket = .ok .unknown ∧
    parsePacket createSynAckPacket = .ok .unknown ∧
    parsePacket createFinPacket = .ok .unknown ∧
    parsePacket createFinAckPacket = .ok .unknown := by
  refine ⟨?_, ?_, ?_, rfl, rfl, rfl, rfl, rfl⟩
  · intro fn fs hv h1 h2
    refine ⟨_, createMetadata_eq fn fs h1 h2, ?_⟩
    have hfn : beValue (beBytes 2 fn.length) = fn.length :=
      beValue_beBytes 2 fn.length (by norm_num at h1 ⊢; omega)
    rw [parse_metadata_shape (beBytes 2 fn.length) fn (beBytes 8 fs)
      (length_beBytes 2 fn.length) (length_beBytes 8 fs) hfn hv,
      beValue_beBytes 8 fs (by norm_num at h2 ⊢; omega)]
  · intro s D hs hD
    have hD16 : D.length < 2 ^ 16 := lt_of_le_of_lt hD (by norm_num)
    exact ⟨_, createData_eq s D hs hD16, parse_createData_bytes s D hs hD16⟩
  · intro n hn
    refine ⟨_, createAck_eq n hn, ?_⟩
    rw [parse_ack_shape (beBytes 4 n) (length_beBytes 4 n),
      beValue_beBytes 4 n (by norm_num at hn ⊢; omega)]

theorem c2_roundtrip_witness :
    (∃ pkt, createMetadataPacket [0x61] 7 = .ok pkt ∧
      parsePacket pkt = .ok (.metadataPkt [0x61] 7)) ∧
    (∃ pkt, createDataPacket 2 [9, 8] = .ok pkt ∧
      parsePacket pkt = .ok (.dataOk 2 [9, 8])) ∧
    (∃ pkt, createAckPacket (5 : Int) = .ok pkt ∧
      parsePacket pkt = .ok (.ackPkt 5)) :=
  ⟨c2_roundtrip.1 [0x61] 7 rfl (by norm_num) (by norm_num),
   c2_roundtrip.2.1 2 [9, 8] (by norm_num) (by norm_num),
   c2_roundtrip.2.2.1 5 (by norm_num)⟩

/-- Claim C7: for every payload D of at most 1024 byte values and an
in-range sequence number, decoding the encoded DATA packet yields D and
reports it valid; and every single-byte change of D inside the encoded
packet (same length, different value at that position) makes the decoder
report corruption, the Python return (PKT_DATA, None). -/
theorem c7_checksum_soundness (s : Nat) (D : List Nat) (hs : s < 2 ^ 32)
    (hlen : D.length ≤ 1024) (hbytes : ∀ b ∈ D, b < 256) :
    ∃ pkt, createDataPacket s D = .ok pkt ∧
      parsePacket pkt = .ok (.dataOk s D) ∧
      ∀ (i : Fin D.length) (nb : Nat), nb < 256 → nb ≠ D.get i →
        parsePacket (pkt.set (11 + (i : Nat)) nb) = .ok .dataCorrupt := by
  have hD16 : D.length < 2 ^ 16 := lt_of_le_of_lt hlen (by norm_num)
  refine ⟨_, createData_eq s D hs hD16, parse_createData_bytes s D hs hD16, ?_⟩
  intro i nb hnb hne
  have hset : (PKT_DATA :: (beBytes 4 s ++ (beBytes 2 D.length ++
      (beBytes 4 (dataChecksum D) ++ D)))).set (11 + (i : Nat)) nb =
      PKT_DATA :: (beBytes 4 s ++ (beBytes 2 D.length ++
      (beBytes 4 (dataChecksum D) ++ D.set i nb))) := by
    rw [show 11 + (i : Nat) = (10 + (i : Nat)) + 1 by omega, List.set_cons_succ,
      show 10 + (i : Nat) = 4 + (6 + (i : Nat)) by omega,
      set_append_skip _ _ 4 _ nb (length_beBytes 4 s),
      show 6 + (i : Nat) = 2 + (4 + (i : Nat)) by omega,
      set_append_skip _ _ 2 _ nb (length_beBytes 2 D.length),
      set_append_skip _ _ 4 _ nb (length_beBytes 4 (dataChecksum D))]
  rw [hset]
  have hlen2 : (D.set (i : Nat) nb).length = D.length := List.length_set ..
  have h256 : (2 : Nat) ^ 32 = 256 ^ 4 := by norm_num
  rw [parse_data_shape (beBytes 4 s) (beBytes 2 D.length) (beBytes 4 (dataChecksum D))
    (D.set (i : Nat) nb) (length_beBytes 4 s) (length_beBytes 2 D.length)
    (length_beBytes 4 (dataChecksum D))
    (by rw [beValue_beBytes 2 D.length (by norm_num at hD16 ⊢; omega), hlen2])]
  have hmismatch : dataChecksum (D.set (i : Nat) nb) ≠
      beValue (beBytes 4 (dataChecksum D)) := by
    rw [beValue_beBytes 4 (dataChecksum D) (by rw [← h256]; exact Nat.mod_lt _ (by norm_num))]
    have hsum := sum_set_add D i nb i.isLt
    simp only [Fin.eta] at hsum
    have hbump : D.sum ≤ 1024 * 255 :=
      le_trans (sum_le_of_bytes D hbytes) (Nat.mul_le_mul_right 255 hlen)
    have hbytes2 : ∀ b ∈ D.set (i : Nat) nb, b < 256 := by
      intro b hb
      rcases List.mem_or_eq_of_mem_set hb with h | h
      · exact hbytes b h
      · omega
    have hbump2 : (D.set (i : Nat) nb).sum ≤ 1024 * 255 := by
      calc (D.set (i : Nat) nb).sum ≤ (D.set (i : Nat) nb).length * 255 :=
            sum_le_of_bytes _ hbytes2
        _ = D.length * 255 := by rw [hlen2]
        _ ≤ 1024 * 255 := Nat.mul_le_mul_right 255 hlen
    rw [dataChecksum, dataChecksum, Nat.mod_eq_of_lt (lt_of_le_of_lt hbump2 (by norm_num)),
      Nat.mod_eq_of_lt (lt_of_le_of_lt hbump (by norm_num))]
    intro heq
    exact hne (by omega)
  rw [if_pos hmismatch]

theorem c7_witness :
    ∃ pkt, createDataPacket 0 [1, 2] = .ok pkt ∧
      parsePacket pkt = .ok (.dataOk 0 [1, 2]) ∧
      ∀ (i : Fin (List.length [1, 2])) (nb : Nat), nb < 256 → nb ≠ List.get [1, 2] i →
        parsePacket (pkt.set (11 + (i : Nat)) nb) = .ok .dataCorrupt :=
  c7_checksum_soundness 0 [1, 2] (by norm_num) (by norm_num) (by decide)

/-- Claim C10: for every payload of at most 1024 bytes the checksum of
_create_data_packet equals the plain byte sum: the sum is at most
1024 * 255 = 261120 < 2^32, so the mod-2^32 mask never changes it, and
the checksum is below 2^18 = 262144. -/
theorem c10_checksum_small (D : List Nat) (hlen : D.length ≤ 1024)
    (hbytes : ∀ b ∈ D, b < 256) :
    dataChecksum D = D.sum ∧ dataChecksum D < 2 ^ 18 := by
  have hb : D.sum ≤ 1024 * 255 :=
    le_trans (sum_le_of_bytes D hbytes) (Nat.mul_le_mul_right 255 hlen)
  have he : dataChecksum D = D.sum := Nat.mod_eq_of_lt (lt_of_le_of_lt hb (by norm_num))
  exact ⟨he, by rw [he]; exact lt_of_le_of_lt hb (by norm_num)⟩

theorem c10_witness :
    dataChecksum [255, 255] = List.sum [255, 255] ∧ dataChecksum [255, 255] < 2 ^ 18 :=
  c10_checksum_small [255, 255] (by norm_num) (by decide)

/-- Claim C4 amended: there is no MalformedPacket error; truncation
surfaces as a raised exception (struct.error, or UnicodeDecodeError for
the filename decode) in these cases: the empty buffer, a METADATA buffer
shorter than 3 + filename_len + 8, an ACK buffer shorter than 5, and a
DATA buffer shorter than its 11-byte header.  A DATA buffer whose
declared payload extends past the end is instead parsed with the
truncated payload slice and left to the checksum test, which can accept
it (see the counterexample). -/
theorem c4_truncated_raises :
    parsePacket [] = .error .structError ∧
    (∀ p fl, p.head? = some PKT_METADATA → beValue (pySlice p 1 3) = fl →
      p.length < 3 + fl + 8 → ∃ e, parsePacket p = .error e) ∧
    (∀ p, p.head? = some PKT_ACK → p.length < 5 →
      parsePacket p = .error .structError) ∧
    (∀ p, p.head? = some PKT_DATA → p.length < 11 →
      parsePacket p = .error .structError) := by
  refine ⟨rfl, ?_, ?_, ?_⟩
  · intro p fl hh hfl hlenp
    rcases p with _ | ⟨a, l⟩
    · simp at hh
    · have ha : a = 2 := by simpa [PKT_METADATA] using hh
      subst ha
      have s01 : pySlice ((2 : Nat) :: l) 0 1 = [2] := rfl
      simp only [List.length_cons] at hlenp
      by_cases h2 : l.length < 2
      · have hs : (pySlice ((2 : Nat) :: l) 1 3).length ≠ 2 := by
          simp only [pySlice, List.length_take, List.length_drop, List.length_cons]
          omega
        refine ⟨.structError, ?_⟩
        simp only [parsePacket, PKT_METADATA, PKT_DATA, PKT_ACK, PKT_EOF, s01, unpackBE,
          beValue_singleton, List.length_cons, List.length_nil, Nat.zero_add]
        norm_num [hs]
      · have h13 : (pySlice ((2 : Nat) :: l) 1 3).length = 2 := by
          simp only [pySlice, List.length_take, List.length_drop, List.length_cons]
          omega
        cases hu : utf8Check (pySlice ((2 : Nat) :: l) 3 (3 + fl)) with
        | error e =>
          refine ⟨e, ?_⟩
          simp only [parsePacket, PKT_METADATA, PKT_DATA, PKT_ACK, PKT_EOF, s01, unpackBE,
            beValue_singleton, List.length_cons, List.length_nil, Nat.zero_add]
          norm_num [h13, hfl, hu]
        | ok bs =>
          have hs8 : (pySlice ((2 : Nat) :: l) (3 + fl) (3 + fl + 8)).length ≠ 8 := by
            simp only [pySlice, List.length_take, List.length_drop, List.length_cons]
            omega
          refine ⟨.structError, ?_⟩
          simp only [parsePacket, PKT_METADATA, PKT_DATA, PKT_ACK, PKT_EOF, s01, unpackBE,
            beValue_singleton, List.length_cons, List.length_nil, Nat.zero_add]
          norm_num [h13, hfl, hu, hs8]
  · intro p hh hlenp
    rcases p with _ | ⟨a, l⟩
    · simp at hh
    · have ha : a = 4 := by simpa [PKT_ACK] using hh
      subst ha
      have s01 : pySlice ((4 : Nat) :: l) 0 1 = [4] := rfl
      simp only [List.length_cons] at hlenp
      have hs : (pySlice ((4 : Nat) :: l) 1 5).length ≠ 4 := by
        simp only [pySlice, List.length_take, List.length_drop, List.length_cons]
        omega
      simp only [parsePacket, PKT_METADATA, PKT_DATA, PKT_ACK, PKT_EOF, s01, unpackBE,
        beValue_singleton, List.length_cons, List.length_nil, Nat.zero_add]
      norm_num [hs]
  · intro p hh hlenp
    rcases p with _ | ⟨a, l⟩
    · simp at hh
    · have ha : a = 3 := by simpa [PKT_DATA] using hh
      subst ha
      have s01 : pySlice ((3 : Nat) :: l) 0 1 = [3] := rfl
      simp only [List.length_cons] at hlenp
      by_cases h4 : l.length < 4
      · have hs : (pySlice ((3 : Nat) :: l) 1 5).length ≠ 4 := by
          simp only [pySlice, List.length_take, List.length_drop, List.length_cons]
          omega
        simp only [parsePacket, PKT_METADATA, PKT_DATA, PKT_ACK, PKT_EOF, s01, unpackBE,
          beValue_singleton, List.length_cons, List.length_nil, Nat.zero_add]
        norm_num [hs]
      · have h15 : (pySlice ((3 : Nat) :: l) 1 5).length = 4 := by
          simp only [pySlice, List.length_take, List.length_drop, List.length_cons]
          omega
        by_cases h6 : l.length < 6
        · have hs : (pySlice ((3 : Nat) :: l) 5 7).length ≠ 2 := by
            simp only [pySlice, List.length_take, List.length_drop, List.length_cons]
            omega
          simp only [parsePacket, PKT_METADATA, PKT_DATA, PKT_ACK, PKT_EOF, s01, unpackBE,
            beValue_singleton, List.length_cons, List.length_nil, Nat.zero_add]
          norm_num [h15, hs]
        · have h57 : (pySlice ((3 : Nat) :: l) 5 7).length = 2 := by
            simp only [pySlice, List.length_take, List.length_drop, List.length_cons]
            omega
          have hs : (pySlice ((3 : Nat) :: l) 7 11).length ≠ 4 := by
            simp only [pySlice, List.length_take, List.length_drop, List.length_cons]
            omega
          simp only [parsePacket, PKT_METADATA, PKT_DATA, PKT_ACK, PKT_EOF, s01, unpackBE,
            beValue_singleton, List.length_cons, List.length_nil, Nat.zero_add]
          norm_num [h15, h57, hs]

theorem c4_truncated_raises_witness :
    (∃ e, parsePacket [2, 0, 5] = .error e) ∧
    parsePacket [4, 0] = .error .structError ∧
    parsePacket [3, 0, 0] = .error .structError :=
  ⟨c4_truncated_raises.2.1 [2, 0, 5] 5 rfl rfl (by norm_num),
   c4_truncated_raises.2.2.1 [4, 0] rfl (by norm_num),
   c4_truncated_raises.2.2.2 [3, 0, 0] rfl (by norm_num)⟩

theorem lookupW_none_iff (k : Nat) (w : List (Nat × List Nat)) :
    lookupW k w = none ↔ ∀ p ∈ w, p.1 ≠ k := by
  induction w with
  | nil => simp [lookupW]
  | cons p t ih =>
    rcases p with ⟨k2, v⟩
    by_cases hk : k2 = k
    · subst hk; simp [lookupW]
    · simp [lookupW, hk, ih]

theorem length_eraseKey_lt (k : Nat) (w : List (Nat × List Nat))
    (h : (lookupW k w).isSome) : (eraseKey k w).length < w.length := by
  induction w with
  | nil => simp [lookupW] at h
  | cons p t ih =>
    rcases p with ⟨k2, v⟩
    by_cases hk : k2 = k
    · subst hk
      have hle : (List.filter (fun p => p.1 != k2) t).length ≤ t.length :=
        List.length_filter_le _ t
      simp only [eraseKey, List.filter_cons, bne_self_eq_false, List.length_cons]
      simp only [Bool.false_eq_true, if_false]
      omega
    · simp only [lookupW, hk, if_false] at h
      have hlt := ih h
      have hb : ((k2, v).1 != k) = true := by simp [hk]
      simp only [eraseKey, List.filter_cons, hb, if_true, List.length_cons] at *
      omega

theorem drainAux_lookup_none (fuel : Nat) (st : RecvState)
    (hfuel : st.recv_window.length ≤ fuel) :
    lookupW (drainAux fuel st).expected_seq (drainAux fuel st).recv_window = none := by
  induction fuel generalizing st with
  | zero =>
    have hw : st.recv_window = [] := List.length_eq_zero.mp (Nat.le_zero.mp hfuel)
    simp [drainAux, hw, lookupW]
  | succ n ih =>
    cases hl : lookupW st.expected_seq st.recv_window with
    | none => simp [drainAux, hl]
    | some c =>
      have hlt : (eraseKey st.expected_seq st.recv_window).length < st.recv_window.length :=
        length_eraseKey_lt _ _ (by simp [hl])
      have hle : (eraseKey st.expected_seq st.recv_window).length ≤ n := by omega
      simpa [drainAux, hl] using ih _ hle

theorem drainAux_chunks (fuel : Nat) (st : RecvState)
    (h : st.received_chunks.map Prod.fst = List.range st.expected_seq) :
    (drainAux fuel st).received_chunks.map Prod.fst =
      List.range (drainAux fuel st).expected_seq := by
  induction fuel generalizing st with
  | zero => simpa [drainAux] using h
  | succ n ih =>
    cases hl : lookupW st.expected_seq st.recv_window with
    | none => simpa [drainAux, hl] using h
    | some c =>
      have : ((st.received_chunks ++ [(st.expected_seq, c)]).map Prod.fst =
          List.range (st.expected_seq + 1)) := by
        simp [List.map_append, h, List.range_succ]
      simpa [drainAux, hl] using ih _ this

theorem recvReach_inv (st : RecvState) (h : RecvReach st) :
    lookupW st.expected_seq st.recv_window = none ∧
    st.received_chunks.map Prod.fst = List.range st.expected_seq := by
  induction h with
  | init => exact ⟨rfl, rfl⟩
  | data st0 seqNum chunk _ ih =>
    constructor
    · exact drainAux_lookup_none _ _ (le_refl _)
    · exact drainAux_chunks _ _ ih.2

/-- Claim C3 counterexample: after delivering sequence 0 and then
receiving a duplicate DATA packet for sequence 0 (as Go-Back-N
retransmission produces), recv_window holds the key 0 while
expected_seq = 1, so the key is not greater than expected_seq. -/
theorem c3_counterexample :
    RecvReach (dataStep (dataStep initRecv 0 [42]) 0 [42]) ∧
    (0, [42]) ∈ (dataStep (dataStep initRecv 0 [42]) 0 [42]).recv_window ∧
    ¬ (0 > (dataStep (dataStep initRecv 0 [42]) 0 [42]).expected_seq) :=
  ⟨RecvReach.data _ _ _ (RecvReach.data _ _ _ RecvReach.init), by decide, by decide⟩

/-- Claim C3 amended: in every state the receive loop reaches, no key of
recv_window equals expected_seq (the drain loop runs until the key is
absent); but keys below expected_seq can persist, because line 419 only
tests membership, so a duplicate of an already-delivered sequence is
re-inserted and never drained.  Keys above expected_seq are the ordinary
out-of-order holdovers. -/
theorem c3_window_never_expected (st : RecvState) (h : RecvReach st) :
    ∀ p ∈ st.recv_window, p.1 ≠ st.expected_seq := by
  have hnone := (recvReach_inv st h).1
  exact (lookupW_none_iff _ _).mp hnone

theorem c3_window_never_expected_witness :
    (1 : Nat) ≠ (dataStep initRecv 1 [7]).expected_seq :=
  c3_window_never_expected _ (RecvReach.data _ _ _ RecvReach.init) (1, [7]) (by decide)

/-- Claim C8: in every state the receive loop reaches, received_chunks
carries exactly the sequence numbers 0, 1, ..., expected_seq - 1 in
strictly increasing order (each exactly once); hence the defensive sort
at line 433 is the identity, and the bytes written are exactly the
received_chunks payloads, with recv_window leftovers never written. -/
theorem c8_delivered_prefix (st : RecvState) (h : RecvReach st) :
    st.received_chunks.map Prod.fst = List.range st.expected_seq ∧
    sortByKey st.received_chunks = st.received_chunks ∧
    writeOutput st = st.received_chunks.map Prod.snd := by
  have hkeys := (recvReach_inv st h).2
  have hpair : st.received_chunks.Pairwise (fun a b => a.1 < b.1) := by
    have hr : (st.received_chunks.map Prod.fst).Pairwise (· < ·) := by
      rw [hkeys]; exact List.pairwise_lt_range _
    exact (List.pairwise_map.mp hr)
  have hsorted : List.Sorted (fun a b : Nat × List Nat => a.1 ≤ b.1) st.received_chunks :=
    hpair.imp (fun hab => le_of_lt hab)
  have hid : sortByKey st.received_chunks = st.received_chunks :=
    List.Sorted.insertionSort_eq hsorted
  exact ⟨hkeys, hid, by rw [writeOutput, hid]⟩

theorem c8_delivered_prefix_witness :
    (dataStep initRecv 0 [5]).received_chunks.map Prod.fst =
      List.range (dataStep initRecv 0 [5]).expected_seq ∧
    sortByKey (dataStep initRecv 0 [5]).received_chunks =
      (dataStep initRecv 0 [5]).received_chunks ∧
    writeOutput (dataStep initRecv 0 [5]) =
      (dataStep initRecv 0 [5]).received_chunks.map Prod.snd :=
  c8_delivered_prefix _ (RecvReach.data _ _ _ RecvReach.init)

/-- Claim C5 counterexample: in the state with send_base 1,
next_seq_num 5, cwnd 10, ssthresh 64, dup_ack_count already 3 and
last_ack 0, a fourth consecutive duplicate ACK (value 0) only increments
the counter to 4: ssthresh stays 64 instead of max(int(10 / 2), 2) = 5,
and next_seq_num is not rewound to send_base, so the fast-retransmit
actions do not re-fire. -/
theorem c5_counterexample :
    handleAck ⟨1, 5, 10, 64, 3, 0⟩ 0 = ⟨1, 5, 10, 64, 4, 0⟩ ∧
    (handleAck ⟨1, 5, 10, 64, 3, 0⟩ 0).dup_ack_count = 4 ∧
    (handleAck ⟨1, 5, 10, 64, 3, 0⟩ 0).ssthresh ≠ max (Int.toNat ⌊(10 : Rat) / 2⌋) 2 ∧
    (handleAck ⟨1, 5, 10, 64, 3, 0⟩ 0).next_seq_num ≠
      (handleAck ⟨1, 5, 10, 64, 3, 0⟩ 0).send_base := by
  have h5 : max (Int.toNat ⌊(10 : Rat) / 2⌋) 2 = 5 := by
    rw [show (10 : Rat) / 2 = ((5 : Nat) : Rat) by norm_num, Int.floor_natCast]
    rfl
  refine ⟨by decide, by decide, ?_, by decide⟩
  rw [h5]
  decide

/-- Claim C5 amended: dup_ack_count is indeed not cleared by the
fast-retransmit branch (the third consecutive duplicate fires the
actions and leaves the counter at 3), but the trigger is the equality
test dup_ack_count == 3, so a fourth consecutive duplicate ACK merely
increments the counter to 4 and performs none of the fast-retransmit
actions; re-firing needs a new ACK to reset the counter first. -/
theorem c5_no_refire :
    (∀ (s : SenderState) (k : Nat), s.dup_ack_count = 2 → (k : Int) = s.last_ack →
      0 ≤ s.last_ack →
      handleAck s k = { s with
        dup_ack_count := 3
        ssthresh := max (Int.toNat ⌊s.cwnd / 2⌋) 2
        cwnd := ((max (Int.toNat ⌊s.cwnd / 2⌋) 2 : Nat) : Rat) + 3
        next_seq_num := s.send_base }) ∧
    (∀ (s : SenderState) (k : Nat), s.dup_ack_count = 3 → (k : Int) = s.last_ack →
      0 ≤ s.last_ack →
      handleAck s k = { s with dup_ack_count := 4 }) := by
  constructor
  · intro s k hd hk hl
    have hnot : ¬ (k ≥ s.send_base ∧ (k : Int) > s.last_ack) := by
      rintro ⟨-, h2⟩
      omega
    rw [handleAck, if_neg hnot, if_pos ⟨hk, hl⟩, hd]
    norm_num
  · intro s k hd hk hl
    have hnot : ¬ (k ≥ s.send_base ∧ (k : Int) > s.last_ack) := by
      rintro ⟨-, h2⟩
      omega
    rw [handleAck, if_neg hnot, if_pos ⟨hk, hl⟩, hd]
    norm_num

theorem c5_no_refire_witness :
    handleAck ⟨0, 3, 4, 64, 2, 1⟩ 1 = { (⟨0, 3, 4, 64, 2, 1⟩ : SenderState) with
      dup_ack_count := 3
      ssthresh := max (Int.toNat ⌊(⟨0, 3, 4, 64, 2, 1⟩ : SenderState).cwnd / 2⌋) 2
      cwnd := ((max (Int.toNat ⌊(⟨0, 3, 4, 64, 2, 1⟩ : SenderState).cwnd / 2⌋) 2 : Nat) : Rat) + 3
      next_seq_num := (⟨0, 3, 4, 64, 2, 1⟩ : SenderState).send_base } ∧
    handleAck ⟨0, 3, 4, 64, 3, 1⟩ 1 =
      { (⟨0, 3, 4, 64, 3, 1⟩ : SenderState) with dup_ack_count := 4 } :=
  ⟨c5_no_refire.1 ⟨0, 3, 4, 64, 2, 1⟩ 1 rfl (by norm_num) (by norm_num),
   c5_no_refire.2 ⟨0, 3, 4, 64, 3, 1⟩ 1 rfl (by norm_num) (by norm_num)⟩

/-- Claim C6 counterexample: send_base ≤ next_seq_num can fail in a
reachable sender state.  With 3 chunks, after transmitting sequence 0,
an ACK of value 5 (k ≥ send_base = 0 and k > last_ack = -1, as a delayed
in-flight ACK after a timeout rewind would produce) sets send_base = 6
while next_seq_num is still 1. -/
theorem c6_counterexample :
    SenderReach 3 (handleAck { initSender with next_seq_num := 1 } 5) ∧
    ¬ ((handleAck { initSender with next_seq_num := 1 } 5).send_base ≤
       (handleAck { initSender with next_seq_num := 1 } 5).next_seq_num) := by
  constructor
  · exact SenderReach.ack _ 5
      (SenderReach.send initSender SenderReach.init (by decide) (by decide)) (by norm_num)
  · decide

/-- Claim C6 amended: in every state the send_file loop reaches, the
signed outstanding count next_seq_num - send_base is at most
min(⌊cwnd⌋, 10), cwnd ≥ 1 throughout, and ssthresh ≥ 2 (initially 64 and
max(..., 2) after every reduction).  The stronger conjunct
send_base ≤ next_seq_num of the claim fails: an ACK valued at or beyond
next_seq_num (possible after a timeout rewound next_seq_num with ACKs
still in flight) pushes send_base past next_seq_num. -/
theorem c6_sender_invariant (total : Nat) (s : SenderState) (h : SenderReach total s) :
    (s.next_seq_num : Int) - (s.send_base : Int) ≤ min ⌊s.cwnd⌋ 10 ∧
    1 ≤ s.cwnd ∧ 2 ≤ s.ssthresh := by
  induction h with
  | init =>
    refine ⟨?_, le_refl 1, by norm_num [initSender]⟩
    norm_num [initSender]
  | send s hr h1 h2 ih =>
    obtain ⟨ihw, ihc, ihs⟩ := ih
    refine ⟨?_, ihc, ihs⟩
    have hfl1 : (1 : Int) ≤ ⌊s.cwnd⌋ := Int.le_floor.mpr (by exact_mod_cast ihc)
    have hew : ((effectiveWindow s : Nat) : Int) = min ⌊s.cwnd⌋ 10 := by
      rw [effectiveWindow, Nat.cast_min, Int.toNat_of_nonneg (by omega)]
      norm_num
    dsimp only
    omega
  | ack s k hr hk ih =>
    obtain ⟨ihw, ihc, ihs⟩ := ih
    by_cases hnew : k ≥ s.send_base ∧ (k : Int) > s.last_ack
    · have hpos : (0 : Rat) < s.cwnd := by linarith
      have hc2 : s.cwnd ≤
          (if s.cwnd < (s.ssthresh : Rat) then s.cwnd + 1 else s.cwnd + 1 / s.cwnd) := by
        split
        · linarith
        · have h1c : (0 : Rat) ≤ 1 / s.cwnd := le_of_lt (div_pos one_pos hpos)
          linarith
      have hcw1 : (1 : Rat) ≤
          (if s.cwnd < (s.ssthresh : Rat) then s.cwnd + 1 else s.cwnd + 1 / s.cwnd) :=
        le_trans ihc hc2
      have hfl : ⌊s.cwnd⌋ ≤
          ⌊(if s.cwnd < (s.ssthresh : Rat) then s.cwnd + 1 else s.cwnd + 1 / s.cwnd)⌋ :=
        Int.floor_le_floor hc2
      rw [handleAck, if_pos hnew]
      refine ⟨?_, hcw1, ihs⟩
      have hkb : s.send_base ≤ k := hnew.1
      dsimp only
      omega
    · by_cases hdup : (k : Int) = s.last_ack ∧ s.last_ack ≥ 0
      · by_cases h3 : s.dup_ack_count + 1 = 3
        · rw [handleAck, if_neg hnew, if_pos hdup, if_pos h3]
          have hT2 : 2 ≤ max (Int.toNat ⌊s.cwnd / 2⌋) 2 := le_max_right _ _
          have hfl : ⌊((max (Int.toNat ⌊s.cwnd / 2⌋) 2 : Nat) : Rat) + 3⌋ =
              ((max (Int.toNat ⌊s.cwnd / 2⌋) 2 : Nat) : Int) + 3 := by
            rw [show ((max (Int.toNat ⌊s.cwnd / 2⌋) 2 : Nat) : Rat) + 3 =
              (((max (Int.toNat ⌊s.cwnd / 2⌋) 2 + 3 : Nat)) : Rat) by push_cast; ring]
            rw [Int.floor_natCast]
            push_cast
            ring
          refine ⟨?_, ?_, hT2⟩
          · dsimp only
            rw [hfl]
            omega
          · dsimp only
            have : (0 : Rat) ≤ ((max (Int.toNat ⌊s.cwnd / 2⌋) 2 : Nat) : Rat) :=
              Nat.cast_nonneg _
            linarith
        · rw [handleAck, if_neg hnew, if_pos hdup, if_neg h3]
          exact ⟨ihw, ihc, ihs⟩
      · rw [handleAck, if_neg hnew, if_neg hdup]
        exact ⟨ihw, ihc, ihs⟩
  | timeout s hr ih =>
    obtain ⟨ihw, ihc, ihs⟩ := ih
    refine ⟨?_, le_refl 1, le_max_right _ _⟩
    show ((timeoutStep s).next_seq_num : Int) - ((timeoutStep s).send_base : Int) ≤
      min ⌊(timeoutStep s).cwnd⌋ 10
    rw [timeoutStep]
    dsimp only
    norm_num

theorem c6_sender_invariant_witness :
    (initSender.next_seq_num : Int) - (initSender.send_base : Int) ≤
      min ⌊initSender.cwnd⌋ 10 ∧
    1 ≤ initSender.cwnd ∧ 2 ≤ initSender.ssthresh :=
  c6_sender_invariant 0 initSender SenderReach.init

/-- Claim C9: when the first datagram connect receives is not SYN-ACK,
connect returns False with the session unchanged (connected and
peer_addr keep their values, in particular stay false and unset); when
the first datagram a bound accept receives is not SYN, accept returns
False, sends nothing, and leaves the session unchanged. -/
theorem c9_handshake_reject (st : Session) (data : List Nat) (addr : Nat) (b : Nat)
    (hhead : data.head? = some b) :
    (b ≠ PKT_SYN_ACK → connectStep st data addr = .ok (false, st)) ∧
    (st.bound = true → b ≠ PKT_SYN → acceptStep st data addr = .ok (false, st, [])) := by
  rcases data with _ | ⟨a, l⟩
  · simp at hhead
  · obtain rfl : a = b := by simpa using hhead
    have hu : unpackBE 1 (pySlice (a :: l) 0 1) = .ok a := by
      have e : pySlice (a :: l) 0 1 = [a] := rfl
      rw [e, unpackBE]
      norm_num [beValue_singleton]
    constructor
    · intro hb
      have hb1 : a ≠ 1 := by simpa [PKT_SYN_ACK] using hb
      simp [connectStep, hu, PKT_SYN_ACK, hb1]
    · intro hbound hb
      have hb0 : a ≠ 0 := by simpa [PKT_SYN] using hb
      simp [acceptStep, hbound, hu, PKT_SYN, hb0]

theorem c9_handshake_reject_witness :
    connectStep ⟨true, false, none⟩ [9] 0 = .ok (false, ⟨true, false, none⟩) ∧
    acceptStep ⟨true, false, none⟩ [9] 0 = .ok (false, ⟨true, false, none⟩, []) :=
  ⟨(c9_handshake_reject ⟨true, false, none⟩ [9] 0 9 rfl).1 (by decide),
   (c9_handshake_reject ⟨true, false, none⟩ [9] 0 9 rfl).2 rfl (by decide)⟩

end FileTransfer
